import Mathlib

/-!
Verification development for the AI customer-feedback analyzer.

The definitions below are a shallow embedding of the repository's core:
the text normalizer and ingestion pipeline (`utils/clean.py`), the
resilient LLM-call executor with exponential backoff
(`utils/gemini_api.py`), the topic-extraction parser, and the batch
analysis loop of `app.py`.  External collaborators (the HTML parser,
the NLTK lemmatizer, the pandas/JSON parsers, the Gemini network
client) are modelled as explicit inputs or, where the behaviour matters,
as small functions modelled from the specification.
-/

/-! ## Character classes (ASCII model of Python `\s`, `\w`, `str.lower`) -/

/-- Python regex whitespace class `\s` (ASCII fragment). -/
def isPySpace (c : Char) : Bool :=
  c == ' ' || c == '\t' || c == '\n' || c == '\x0d' || c == '\x0b' || c == '\x0c'

/-- Python regex word class `\w` (ASCII fragment): alphanumeric or underscore. -/
def isPyWord (c : Char) : Bool :=
  c.isAlphanum || c == '_'

/-- Python `str.lower` on one character (ASCII fragment). -/
def pyToLower (c : Char) : Char :=
  if 65 ≤ c.toNat ∧ c.toNat ≤ 90 then Char.ofNat (c.toNat + 32) else c

/-- `text.lower()` as used by `preprocess_text`. -/
def pyLowerList (l : List Char) : List Char :=
  l.map pyToLower

/-! ## `remove_urls`: `re.sub(r'http\S+|www.\S+', '', text)`

The scan is leftmost, non-overlapping; at each position the first
alternative `http\S+` is tried, then `www.\S+` (the unescaped `.`
matches any character except a newline); `\S+` is greedy. -/

/-- If the regex `http\S+|www.\S+` matches at the head of `l`, return the
suffix of `l` that follows the (greedy) match; otherwise `none`. -/
def urlMatchEnd (l : List Char) : Option (List Char) :=
  match l with
  | 'h' :: 't' :: 't' :: 'p' :: c :: cs =>
      if isPySpace c then none else some (cs.dropWhile (fun x => !isPySpace x))
  | 'w' :: 'w' :: 'w' :: d :: c :: cs =>
      if d == '\n' || isPySpace c then none
      else some (cs.dropWhile (fun x => !isPySpace x))
  | _ => none

/-- Fuel-driven scan performing the global substitution of the URL regex by
the empty string.  The fuel is initialised to the length of the list, which
always suffices; with fuel `0` the remainder is returned unchanged. -/
def removeUrlsFuel : Nat → List Char → List Char
  | 0, l => l
  | _ + 1, [] => []
  | fuel + 1, c :: cs =>
      match urlMatchEnd (c :: cs) with
      | some rest => removeUrlsFuel fuel rest
      | none => c :: removeUrlsFuel fuel cs

/-- `remove_urls` from `utils/clean.py`. -/
def remove_urls (s : String) : String :=
  ⟨removeUrlsFuel s.data.length s.data⟩

/-! ## `remove_html_tags` (collaborator model) -/

/-- Drop characters up to and including the next `>` (the interior of a tag). -/
def dropTag : List Char → List Char
  | [] => []
  | '>' :: cs => cs
  | _ :: cs => dropTag cs

/-- Fuel-driven tag stripper; fuel is initialised to the list length. -/
def stripHtmlFuel : Nat → List Char → List Char
  | 0, l => l
  | _ + 1, [] => []
  | fuel + 1, c :: cs =>
      if c == '<' then stripHtmlFuel fuel (dropTag cs)
      else c :: stripHtmlFuel fuel cs

/-- Modelled from the spec: `remove_html_tags` delegates to the external
HTML-parsing collaborator (BeautifulSoup `get_text`), which is not part of
this repository; the spec requires that HTML markup be stripped, keeping
only text content.  The model removes every angle-bracketed tag span. -/
def remove_html_tags (s : String) : String :=
  ⟨stripHtmlFuel s.data.length s.data⟩

/-! ## `remove_punctuation`: `re.sub(r'[^\w\s]', '', text)` -/

/-- `remove_punctuation` from `utils/clean.py`. -/
def remove_punctuation (s : String) : String :=
  ⟨s.data.filter (fun c => isPyWord c || isPySpace c)⟩

/-! ## Python `str.strip()` -/

/-- Remove leading and trailing whitespace, as Python `str.strip()`. -/
def pyStripList (l : List Char) : List Char :=
  ((l.dropWhile isPySpace).reverse.dropWhile isPySpace).reverse

/-- `str.strip()` on strings. -/
def pyStripStr (s : String) : String :=
  ⟨pyStripList s.data⟩

/-! ## `preprocess_text` -/

/-- A Python value as seen by `preprocess_text`: a string, or any
non-string value (e.g. pandas `NaN`, a JSON number), which the function
maps to the empty string. -/
inductive PyVal where
  | str (s : String)
  | other
deriving DecidableEq

/-- `preprocess_text` from `utils/clean.py`.  The `lemmatizer` argument
stands for `tokenize_and_lemmatize`, which delegates to the external NLTK
collaborator (`word_tokenize` and `WordNetLemmatizer`), not part of this
repository. -/
def preprocess_text (lemmatizer : String → String) (text : PyVal)
    (apply_lemmatization : Bool) : String :=
  match text with
  | .other => ""
  | .str s =>
      let t1 : String := ⟨pyLowerList s.data⟩
      let t2 := remove_urls t1
      let t3 := remove_html_tags t2
      let t4 := remove_punctuation t3
      let t5 := if apply_lemmatization then lemmatizer t4 else t4
      pyStripStr t5

/-- The normalizer on strings (the `.str` case of `preprocess_text`). -/
def normalizeText (lemmatizer : String → String) (s : String)
    (apply_lemmatization : Bool) : String :=
  preprocess_text lemmatizer (.str s) apply_lemmatization

/-! ## Ingestion: `ingest_and_clean_data` from `utils/clean.py`

The format-specific parsers (pandas `read_csv`, `json.load`, line
iteration) are external collaborators; their outcome is supplied as an
explicit input.  The error taxonomy distinguishes the code's two raise
sites: format violations (every `ValueError` raised before cleaning) and
the empty-result check after cleaning. -/

/-- A JSON value as produced by the `json.load` collaborator. -/
inductive JsonVal where
  | arr (items : List JsonVal)
  | obj (fields : List (String × JsonVal))
  | str (s : String)
  | scalar

/-- View a JSON value as the Python value handed to `preprocess_text`. -/
def jsonToPy : JsonVal → PyVal
  | .str s => .str s
  | _ => .other

/-- Whether a JSON value is a list (`isinstance(data, list)`). -/
def JsonVal.isArr : JsonVal → Bool
  | .arr _ => true
  | _ => false

/-- Whether a JSON value is an object (`isinstance(item, dict)`). -/
def JsonVal.isObj : JsonVal → Bool
  | .obj _ => true
  | _ => false

/-- `item.get("feedback", "")` on a JSON object's field list. -/
def getFeedbackField (fields : List (String × JsonVal)) : PyVal :=
  match fields.lookup "feedback" with
  | some v => jsonToPy v
  | none => .str ""

/-- The dataframe produced by the `pd.read_csv` collaborator: a header row
and the data rows (cells already coerced to strings, as `astype(str)`). -/
structure CsvFrame where
  columns : List String
  rows : List (List String)

/-- `df["feedback_text"].astype(str).tolist()`: the cells of the named
column, in row order. -/
def csvColumn (df : CsvFrame) (c : String) : List String :=
  df.rows.map (fun r => r.getD (df.columns.indexOf c) "")

/-- The uploaded file as seen by `ingest_and_clean_data`: the declared
file type together with the outcome of the corresponding parsing
collaborator (`Except.error` = the collaborator raised). -/
inductive FileContent where
  | csv (frame : Except String CsvFrame)
  | json (val : Except Unit JsonVal)
  | txt (lines : List String)
  | other (file_type : String)

/-- The error taxonomy of the ingestion layer: `formatError` for every
`ValueError` raised by the format branches, `emptyResultError` for the
final no-usable-text check. -/
inductive IngestError where
  | formatError (msg : String)
  | emptyResultError (msg : String)
deriving DecidableEq

/-- The message of the `ValueError` re-raised when the CSV header lacks a
`feedback_text` column (the inner raise wrapped by the `except` clause). -/
def csvMissingColumnMsg : String :=
  "Error reading CSV file: CSV file must contain a \x27feedback_text\x27 column.." ++
    " Ensure it\x27s correctly formatted with \x27feedback_text\x27 column."

/-- The message of the `ValueError` re-raised when the top-level JSON value
is not a list (the inner raise wrapped by the `except` clause). -/
def jsonNotListMsg : String :=
  "Error reading JSON file: JSON file must be a list of objects, each with a \x27feedback\x27 field.." ++
    " Ensure it\x27s a list of objects with a \x27feedback\x27 field."

/-- The message of the `ValueError` raised when nothing survives cleaning. -/
def emptyResultMsg : String :=
  "No valid feedback text found after cleaning. Please check your file content."

/-- The format-specific extraction phase of `ingest_and_clean_data`
(lines 93-121 of `utils/clean.py`): produce the raw `feedback_texts`
list or raise. -/
def extract_feedback_texts (content : FileContent) :
    Except IngestError (List PyVal) :=
  match content with
  | .csv frame =>
      match frame with
      | .error msg =>
          .error (.formatError ("Error reading CSV file: " ++ msg ++
            ". Ensure it\x27s correctly formatted with \x27feedback_text\x27 column."))
      | .ok df =>
          if "feedback_text" ∈ df.columns then
            .ok ((csvColumn df "feedback_text").map PyVal.str)
          else
            .error (.formatError csvMissingColumnMsg)
  | .json val =>
      match val with
      | .error _ => .error (.formatError "Invalid JSON file format.")
      | .ok (JsonVal.arr items) =>
          .ok (items.filterMap fun it =>
            match it with
            | JsonVal.obj fields => some (getFeedbackField fields)
            | _ => none)
      | .ok _ =>
          .error (.formatError jsonNotListMsg)
  | .txt lines =>
      .ok ((lines.filter (fun l => !(pyStripStr l == ""))).map
        (fun l => PyVal.str (pyStripStr l)))
  | .other file_type =>
      .error (.formatError ("Unsupported file type: " ++ file_type ++
        ". Please upload a CSV, JSON, or TXT file."))

/-- The cleaning phase of `ingest_and_clean_data` (lines 123-128):
normalize every raw record, drop the ones that normalize to empty. -/
def cleanTexts (lemmatizer : String → String) (apply_lemmatization : Bool)
    (feedback_texts : List PyVal) : List String :=
  (feedback_texts.map
    (fun t => preprocess_text lemmatizer t apply_lemmatization)).filter
    (fun f => !(f == ""))

/-- `ingest_and_clean_data` from `utils/clean.py`. -/
def ingest_and_clean_data (content : FileContent)
    (apply_lemmatization : Bool) (lemmatizer : String → String) :
    Except IngestError (List String) :=
  match extract_feedback_texts content with
  | .error e => .error e
  | .ok feedback_texts =>
      let cleaned_feedback := cleanTexts lemmatizer apply_lemmatization feedback_texts
      if cleaned_feedback = [] then
        .error (.emptyResultError emptyResultMsg)
      else
        .ok cleaned_feedback

/-! ## Resilient call executor: `make_gemini_call_with_retry`

The network collaborator (`model_instance.generate_content`) is supplied
as an oracle from the attempt index to the outcome of that attempt.  The
result records the returned string, the list of delays slept (in order)
and the number of attempts issued, mirroring an injected clock/sleep
double; delays are in whole time-units (the doubling from `1.0` keeps
them integral). -/

/-- Outcome of one `generate_content` attempt: a response whose `.text` is
the given string (possibly empty/blocked), a `ResourceExhausted`
(rate-limit) exception, or any other exception. -/
inductive GenOutcome where
  | ok (text : String)
  | resourceExhausted (e : String)
  | otherError (e : String)

/-- Result of the executor: the string returned to the caller, the slept
delays in order, and the number of attempts performed. -/
structure CallResult where
  text : String
  sleeps : List Nat
  attempts : Nat
deriving DecidableEq

/-- Sentinel returned on an empty or safety-blocked response. -/
def emptyBlockedSentinel : String :=
  "AI response was empty or blocked for this input, possibly due to safety settings."

/-- Sentinel returned when all retries were exhausted on rate-limit errors. -/
def rateLimitSentinel (max_retries : Nat) (e : String) : String :=
  "Failed to get response after " ++ toString max_retries ++
    " retries due to quota/rate limit: " ++ e

/-- Sentinel returned on any non-rate-limit error. -/
def unexpectedErrorSentinel (e : String) : String :=
  "An unexpected API error occurred: " ++ e

/-- The `while retries < max_retries` loop of `make_gemini_call_with_retry`,
with `fuel = max_retries - retries`; `calls` counts the attempts made so
far and `acc` holds the slept delays most recent first. -/
def retryAux (gen : Nat → GenOutcome) (max_retries : Nat) :
    Nat → Nat → Nat → List Nat → CallResult
  | 0, calls, _, acc =>
      ⟨"Failed to get response after multiple retries (unknown reason).", acc.reverse, calls⟩
  | fuel + 1, calls, delay, acc =>
      match gen calls with
      | .ok text =>
          if text = "" then ⟨emptyBlockedSentinel, acc.reverse, calls + 1⟩
          else ⟨text, acc.reverse, calls + 1⟩
      | .resourceExhausted e =>
          if fuel = 0 then ⟨rateLimitSentinel max_retries e, acc.reverse, calls + 1⟩
          else retryAux gen max_retries fuel (calls + 1) (delay * 2) (delay :: acc)
      | .otherError e =>
          ⟨unexpectedErrorSentinel e, acc.reverse, calls + 1⟩

/-- `make_gemini_call_with_retry` from `utils/gemini_api.py`; the callers
all use `max_retries = 7` and `initial_delay = 1.0`. -/
def make_gemini_call_with_retry (gen : Nat → GenOutcome)
    (max_retries : Nat) (initial_delay : Nat) : CallResult :=
  retryAux gen max_retries max_retries 0 initial_delay []

/-! ## Topic extraction: `extract_topics` from `utils/gemini_api.py` -/

/-- Python `str.startswith`. -/
def beginsWithList : List Char → List Char → Bool
  | [], _ => true
  | _ :: _, [] => false
  | p :: ps, c :: cs => p == c && beginsWithList ps cs

/-- `s.startswith(pre)`. -/
def pyStartsWith (s pre : String) : Bool :=
  beginsWithList pre.data s.data

/-- Python `s.split(',')` on character lists. -/
def splitOnComma : List Char → List (List Char)
  | [] => [[]]
  | c :: cs =>
      let r := splitOnComma cs
      if c == ',' then [] :: r
      else
        match r with
        | [] => [[c]]
        | x :: xs => (c :: x) :: xs

/-- `raw_topics.split(',')`. -/
def pySplitComma (s : String) : List String :=
  (splitOnComma s.data).map (fun l => ⟨l⟩)

/-- The response parser of `extract_topics` (lines 138-140): filter the
two executor-failure sentinel patterns, the literal `no topics` and the
empty string; otherwise split on commas, trim and drop empties. -/
def extract_topics_parse (raw_topics : String) : List String :=
  if !(raw_topics == "") && !(raw_topics == "no topics") &&
      !(pyStartsWith raw_topics "An unexpected API error occurred:") &&
      !(pyStartsWith raw_topics "Failed to get response after") then
    ((pySplitComma raw_topics).map pyStripStr).filter (fun t => !(t == ""))
  else []

/-- `extract_topics` routed through the call executor. -/
def extract_topics (gen : Nat → GenOutcome) : List String :=
  extract_topics_parse (make_gemini_call_with_retry gen 7 1).text

/-! ## Batch analysis loop of `app.py` -/

/-- Session state relevant to the analysis (`st.session_state`). -/
structure SessionState where
  cleaned_feedback : List String
  sentiments : List String
  topics_per_feedback : List String
  ai_summary : String
  analysis_completed : Bool

/-- The state installed by the initialisation block (lines 47-64 of
`app.py`): empty data, no results. -/
def initial_session : SessionState :=
  ⟨[], [], [], "", false⟩

/-- `", ".join(topics) if topics else ""` (line 177 of `app.py`). -/
def topicsJoin (ts : List String) : String :=
  if ts = [] then "" else String.intercalate ", " ts

/-- The `for i, feedback in enumerate(...)` loop of the analysis handler
(lines 170-180 of `app.py`), appending one sentiment and one joined
topic string per item. -/
def analysisLoop (getSent : String → String) (getTopics : String → List String) :
    List String → List String → List String → List String × List String
  | [], tempS, tempT => (tempS, tempT)
  | f :: fs, tempS, tempT =>
      analysisLoop getSent getTopics fs (tempS ++ [getSent f])
        (tempT ++ [topicsJoin (getTopics f)])

/-- The `run_ai_analysis_button` handler (lines 165-190 of `app.py`):
run the loop over the cleaned feedback, store the parallel result
arrays, generate the overall summary, and mark analysis completed.
`getSent`, `getTopics` and `summarize` stand for the stubbed analysis
operations. -/
def run_ai_analysis (st : SessionState) (getSent : String → String)
    (getTopics : String → List String) (summarize : List String → String) :
    SessionState :=
  let r := analysisLoop getSent getTopics st.cleaned_feedback [] []
  ⟨st.cleaned_feedback, r.1, r.2, summarize st.cleaned_feedback, true⟩

/-! ## Substring occurrence (used to state the normalizer's idempotence) -/

/-- The characters of the literal `http`. -/
def httpPat : List Char := ['h', 't', 't', 'p']

/-- The characters of the literal `www`. -/
def wwwPat : List Char := ['w', 'w', 'w']

/-- Whether `pat` occurs as a contiguous substring. -/
def occursIn (pat : List Char) : List Char → Bool
  | [] => pat.isEmpty
  | c :: cs => beginsWithList pat (c :: cs) || occursIn pat cs

/-- Whether `pat` occurs as a substring of `s`. -/
def occursInStr (s pat : String) : Bool :=
  occursIn pat.data s.data

/-! ## Lemmas about the retry loop -/

theorem retryAux_step_rate (gen : Nat → GenOutcome)
    (mr fuel fuel' calls calls' delay delay' : Nat)
    (acc : List Nat) (e : String) (h : gen calls = .resourceExhausted e)
    (hf : fuel = fuel' + 1) (hf' : fuel' ≠ 0) (hc : calls' = calls + 1)
    (hd : delay' = delay * 2) :
    retryAux gen mr fuel calls delay acc =
      retryAux gen mr fuel' calls' delay' (delay :: acc) := by
  subst hf hc hd
  simp [retryAux, h, hf']

theorem retryAux_ok (gen : Nat → GenOutcome) (mr fuel calls delay : Nat)
    (acc : List Nat) (t : String) (h : gen calls = .ok t) (ht : t ≠ "")
    (hf : fuel ≠ 0) :
    retryAux gen mr fuel calls delay acc = ⟨t, acc.reverse, calls + 1⟩ := by
  obtain ⟨f, rfl⟩ := Nat.exists_eq_succ_of_ne_zero hf
  simp [retryAux, h, ht]

theorem retryAux_other (gen : Nat → GenOutcome) (mr fuel calls delay : Nat)
    (acc : List Nat) (e : String) (h : gen calls = .otherError e) (hf : fuel ≠ 0) :
    retryAux gen mr fuel calls delay acc =
      ⟨unexpectedErrorSentinel e, acc.reverse, calls + 1⟩ := by
  obtain ⟨f, rfl⟩ := Nat.exists_eq_succ_of_ne_zero hf
  simp [retryAux, h]

theorem retryAux_attempts_le (gen : Nat → GenOutcome) (mr : Nat) :
    ∀ fuel calls delay acc,
      (retryAux gen mr fuel calls delay acc).attempts ≤ calls + fuel := by
  intro fuel
  induction fuel with
  | zero => intro calls delay acc; simp [retryAux]
  | succ f ih =>
    intro calls delay acc
    rw [retryAux]
    cases hg : gen calls with
    | ok t =>
      by_cases ht : t = "" <;> simp [ht]
    | resourceExhausted e =>
      by_cases hf : f = 0
      · simp [hf]
      · simpa [hf] using le_trans (ih (calls + 1) (delay * 2) (delay :: acc)) (by omega)
    | otherError e => simp

theorem retryAux_sleeps_geometric (gen : Nat → GenOutcome) (mr : Nat) :
    ∀ fuel calls delay acc, ∃ k ≤ fuel,
      (retryAux gen mr fuel calls delay acc).sleeps =
        acc.reverse ++ (List.range k).map (fun i => delay * 2 ^ i) := by
  intro fuel
  induction fuel with
  | zero => intro calls delay acc; exact ⟨0, le_refl 0, by simp [retryAux]⟩
  | succ f ih =>
    intro calls delay acc
    rw [retryAux]
    cases hg : gen calls with
    | ok t =>
      by_cases ht : t = "" <;> exact ⟨0, by omega, by simp [ht]⟩
    | resourceExhausted e =>
      by_cases hf : f = 0
      · exact ⟨0, by omega, by simp [hf]⟩
      · obtain ⟨k, hk, hs⟩ := ih (calls + 1) (delay * 2) (delay :: acc)
        refine ⟨k + 1, by omega, ?_⟩
        have hmap : (List.range (k + 1)).map (fun i => delay * 2 ^ i) =
            delay :: (List.range k).map (fun i => delay * 2 * 2 ^ i) := by
          rw [List.range_succ_eq_map, List.map_cons, List.map_map]
          simp only [pow_zero, mul_one]
          congr 1
          apply List.map_congr_left
          intro i _
          simp only [Function.comp_apply, pow_succ]
          ring
        simp only [hf, if_false, hs, hmap, List.reverse_cons, List.append_assoc,
          List.singleton_append]
    | otherError e => exact ⟨0, by omega, by simp⟩

/-! ## Lemmas about the analysis loop -/

theorem analysisLoop_eq (getS : String → String) (getT : String → List String) :
    ∀ (items tempS tempT : List String),
      analysisLoop getS getT items tempS tempT =
        (tempS ++ items.map getS,
         tempT ++ items.map (fun f => topicsJoin (getT f))) := by
  intro items
  induction items with
  | nil => intro tempS tempT; simp [analysisLoop]
  | cons f fs ih =>
    intro tempS tempT
    rw [analysisLoop, ih]
    simp

/-! ## Lemmas about the normalizer -/

theorem pyToLower_idem (c : Char) : pyToLower (pyToLower c) = pyToLower c := by
  unfold pyToLower
  split
  · rename_i h
    have hv : Nat.isValidChar (c.toNat + 32) := Or.inl (by omega)
    have ht : (Char.ofNat (c.toNat + 32)).toNat = c.toNat + 32 := by
      rw [Char.ofNat, dif_pos hv]
      exact rfl
    rw [if_neg]
    rw [ht]
    omega
  · rfl

theorem mapFixedId {α : Type} (f : α → α) :
    ∀ l : List α, (∀ c ∈ l, f c = c) → l.map f = l := by
  intro l
  induction l with
  | nil => intro _; rfl
  | cons c cs ih =>
    intro h
    rw [List.map_cons, h c (by simp), ih (fun x hx => h x (by simp [hx]))]

theorem urlMatchEnd_subset (l rest : List Char) (h : urlMatchEnd l = some rest) :
    ∀ c ∈ rest, c ∈ l := by
  unfold urlMatchEnd at h
  split at h
  · split at h
    · exact absurd h (by simp)
    · intro c hc
      cases h
      have := (List.dropWhile_sublist (fun x => !isPySpace x)).subset hc
      simp [this]
  · split at h
    · exact absurd h (by simp)
    · intro c hc
      cases h
      have := (List.dropWhile_sublist (fun x => !isPySpace x)).subset hc
      simp [this]
  · exact absurd h (by simp)

theorem urlMatchEnd_begins (l rest : List Char) (h : urlMatchEnd l = some rest) :
    beginsWithList httpPat l = true ∨ beginsWithList wwwPat l = true := by
  unfold urlMatchEnd at h
  split at h
  · left; simp [httpPat, beginsWithList]
  · right; simp [wwwPat, beginsWithList]
  · exact absurd h (by simp)

theorem removeUrlsFuel_subset :
    ∀ (fuel : Nat) (l : List Char), ∀ c ∈ removeUrlsFuel fuel l, c ∈ l := by
  intro fuel
  induction fuel with
  | zero => intro l c hc; exact hc
  | succ f ih =>
    intro l c hc
    match l with
    | [] => exact hc
    | x :: xs =>
      rw [removeUrlsFuel] at hc
      cases hm : urlMatchEnd (x :: xs) with
      | some rest =>
        rw [hm] at hc
        exact urlMatchEnd_subset _ _ hm c (ih rest c hc)
      | none =>
        rw [hm] at hc
        rcases List.mem_cons.mp hc with h | h
        · simp [h]
        · simp [ih xs c h]

theorem removeUrlsFuel_id (fuel : Nat) :
    ∀ l : List Char, occursIn httpPat l = false → occursIn wwwPat l = false →
      removeUrlsFuel fuel l = l := by
  induction fuel with
  | zero => intro l _ _; rfl
  | succ f ih =>
    intro l h1 h2
    match l with
    | [] => rfl
    | x :: xs =>
      rw [occursIn, Bool.or_eq_false_iff] at h1 h2
      have hm : urlMatchEnd (x :: xs) = none := by
        cases hm : urlMatchEnd (x :: xs) with
        | none => rfl
        | some rest =>
          rcases urlMatchEnd_begins _ _ hm with hb | hb
          · rw [h1.1] at hb; exact absurd hb (by simp)
          · rw [h2.1] at hb; exact absurd hb (by simp)
      rw [removeUrlsFuel, hm, ih xs h1.2 h2.2]

theorem dropTag_subset : ∀ l : List Char, ∀ c ∈ dropTag l, c ∈ l := by
  intro l
  induction l with
  | nil => intro c hc; exact absurd hc (List.not_mem_nil c)
  | cons x xs ih =>
    intro c hc
    by_cases hx : x = '>'
    · subst hx; rw [dropTag] at hc; simp [hc]
    · rw [show dropTag (x :: xs) = dropTag xs by
        cases x; rw [dropTag.eq_def]; simp_all] at hc
      simp [ih c hc]

theorem stripHtmlFuel_subset :
    ∀ (fuel : Nat) (l : List Char), ∀ c ∈ stripHtmlFuel fuel l, c ∈ l := by
  intro fuel
  induction fuel with
  | zero => intro l c hc; exact hc
  | succ f ih =>
    intro l c hc
    match l with
    | [] => exact hc
    | x :: xs =>
      rw [stripHtmlFuel] at hc
      by_cases hx : x = '<'
      · simp only [hx, beq_self_eq_true, if_true] at hc
        have := ih (dropTag xs) c hc
        exact List.mem_cons_of_mem _ (dropTag_subset xs c this)
      · simp only [beq_iff_eq, hx, if_false] at hc
        rcases List.mem_cons.mp hc with h | h
        · simp [h]
        · exact List.mem_cons_of_mem _ (ih xs c h)

theorem stripHtmlFuel_id (fuel : Nat) :
    ∀ l : List Char, (∀ c ∈ l, c ≠ '<') → stripHtmlFuel fuel l = l := by
  induction fuel with
  | zero => intro l _; rfl
  | succ f ih =>
    intro l h
    match l with
    | [] => rfl
    | x :: xs =>
      rw [stripHtmlFuel]
      have hx : (x == '<') = false := by
        simp [h x (by simp)]
      rw [hx]
      simp only [if_false, Bool.false_eq_true]
      rw [ih xs (fun c hc => h c (List.mem_cons_of_mem _ hc))]

theorem pyStripList_subset (l : List Char) : ∀ c ∈ pyStripList l, c ∈ l := by
  intro c hc
  rw [pyStripList] at hc
  rw [List.mem_reverse] at hc
  have h1 := (List.dropWhile_sublist isPySpace).subset hc
  rw [List.mem_reverse] at h1
  exact (List.dropWhile_sublist isPySpace).subset h1

theorem dropWhile_shape (q : Char → Bool) (l : List Char) :
    l.dropWhile q = [] ∨ ∃ a t, l.dropWhile q = a :: t ∧ q a = false := by
  induction l with
  | nil => left; rfl
  | cons x xs ih =>
    by_cases hx : q x
    · rw [List.dropWhile_cons_of_pos hx]; exact ih
    · right
      refine ⟨x, xs, List.dropWhile_cons_of_neg hx, by simpa using hx⟩

theorem dropWhile_eq_self_of_head (q : Char → Bool) (l : List Char)
    (h : ∀ a t, l = a :: t → q a = false) : l.dropWhile q = l := by
  cases l with
  | nil => rfl
  | cons a t =>
    apply List.dropWhile_cons_of_neg
    simp [h a t rfl]

theorem dropWhile_idem (q : Char → Bool) (l : List Char) :
    (l.dropWhile q).dropWhile q = l.dropWhile q := by
  rcases dropWhile_shape q l with h | ⟨a, t, h, ha⟩
  · rw [h]; rfl
  · rw [h]
    exact List.dropWhile_cons_of_neg (by simp [ha])

theorem getLast?_dropWhile (q : Char → Bool) :
    ∀ l : List Char, l.dropWhile q ≠ [] →
      (l.dropWhile q).getLast? = l.getLast? := by
  intro l
  induction l with
  | nil => intro h; exact absurd rfl h
  | cons x xs ih =>
    intro h
    by_cases hx : q x
    · rw [List.dropWhile_cons_of_pos hx] at h ⊢
      rw [ih h]
      have hxs : xs ≠ [] := by
        intro he
        rw [he] at h
        exact h rfl
      match xs, hxs with
      | y :: ys, _ => rfl
    · rw [List.dropWhile_cons_of_neg hx]

theorem pyStripList_idem (l : List Char) :
    pyStripList (pyStripList l) = pyStripList l := by
  set d1 := l.dropWhile isPySpace with hd1
  set d2 := d1.reverse.dropWhile isPySpace with hd2
  have hres : pyStripList l = d2.reverse := rfl
  rw [hres, pyStripList]
  have hA : d2.reverse.dropWhile isPySpace = d2.reverse := by
    apply dropWhile_eq_self_of_head
    intro a t hat
    have hhead : d2.reverse.head? = some a := by rw [hat]; rfl
    rw [List.head?_reverse] at hhead
    have hd2ne : d2 ≠ [] := by
      intro he
      rw [he] at hhead
      simp at hhead
    rw [hd2, getLast?_dropWhile isPySpace d1.reverse
      (by rw [← hd2]; exact hd2ne)] at hhead
    rw [List.getLast?_reverse] at hhead
    rcases dropWhile_shape isPySpace l with h | ⟨b, t2, h, hb⟩
    · rw [← hd1] at h
      rw [h] at hhead
      simp at hhead
    · rw [← hd1] at h
      rw [h] at hhead
      simp only [List.head?_cons, Option.some_inj] at hhead
      rw [hhead] at hb
      exact hb
  rw [hA, List.reverse_reverse, hd2, dropWhile_idem]

/-! ## Claim theorems -/

/-- C1: if the underlying request raises a rate-limit error on all 7
attempts, the call executor returns the terminal sentinel embedding the
final error and the attempt count (7), and performs exactly 6 sleeps (one
fewer than the number of attempts); being a total function, it does not
raise. -/
theorem rate_limit_exhaustion_returns_sentinel (e : Nat → String) :
    make_gemini_call_with_retry (fun i => GenOutcome.resourceExhausted (e i)) 7 1 =
      ⟨rateLimitSentinel 7 (e 6), [1, 2, 4, 8, 16, 32], 7⟩ ∧
    (make_gemini_call_with_retry
      (fun i => GenOutcome.resourceExhausted (e i)) 7 1).sleeps.length = 6 :=
  ⟨rfl, rfl⟩

/-- C2: for every execution of the call executor at its call-site
parameters (7 max attempts, initial delay 1), the total number of attempts
is at most 7, and the slept delays are an initial run of the doubling
sequence 1, 2, 4, 8, 16, 32, 64. -/
theorem retry_attempts_bounded_and_backoff_doubles (gen : Nat → GenOutcome) :
    (make_gemini_call_with_retry gen 7 1).attempts ≤ 7 ∧
      ∃ t, (make_gemini_call_with_retry gen 7 1).sleeps ++ t =
        [1, 2, 4, 8, 16, 32, 64] := by
  constructor
  · simpa using retryAux_attempts_le gen 7 7 0 1 []
  · obtain ⟨k, hk, hs⟩ := retryAux_sleeps_geometric gen 7 7 0 1 []
    refine ⟨((List.range 7).map (fun i => 1 * 2 ^ i)).drop k, ?_⟩
    have hlist : (List.range 7).map (fun i => 1 * 2 ^ i) =
        [1, 2, 4, 8, 16, 32, 64] := by decide
    rw [← hlist]
    have htake : ((List.range 7).map (fun i => 1 * 2 ^ i)).take k =
        (List.range k).map (fun i => 1 * 2 ^ i) := by
      rw [← List.map_take, List.take_range, inf_eq_left.mpr hk]
    rw [make_gemini_call_with_retry, hs]
    simp only [List.reverse_nil, List.nil_append]
    rw [← htake, List.take_append_drop]

/-- C3: if the request rate-limits on exactly the first 3 attempts and then
succeeds with non-empty text, the executor returns that text and sleeps
exactly three times with delays 1, 2, 4 in that order (4 attempts total). -/
theorem three_rate_limits_then_success (gen : Nat → GenOutcome)
    (e0 e1 e2 : String) (t : String)
    (h0 : gen 0 = .resourceExhausted e0) (h1 : gen 1 = .resourceExhausted e1)
    (h2 : gen 2 = .resourceExhausted e2) (h3 : gen 3 = .ok t) (ht : t ≠ "") :
    make_gemini_call_with_retry gen 7 1 = ⟨t, [1, 2, 4], 4⟩ := by
  rw [make_gemini_call_with_retry,
    retryAux_step_rate gen 7 7 6 0 1 1 2 [] e0 h0 rfl (by omega) rfl rfl,
    retryAux_step_rate gen 7 6 5 1 2 2 4 [1] e1 h1 rfl (by omega) rfl rfl,
    retryAux_step_rate gen 7 5 4 2 3 4 8 [2, 1] e2 h2 rfl (by omega) rfl rfl,
    retryAux_ok gen 7 4 3 8 [4, 2, 1] t h3 ht (by omega)]
  rfl

/-- Witness for C3 at a concrete mock. -/
theorem three_rate_limits_then_success_witness :
    make_gemini_call_with_retry
      (fun i => if i < 3 then .resourceExhausted "rate" else .ok "Positive") 7 1 =
        ⟨"Positive", [1, 2, 4], 4⟩ :=
  three_rate_limits_then_success _ "rate" "rate" "rate" "Positive"
    rfl rfl rfl rfl (by decide)

/-- C4: if the request raises a non-rate-limit error on the first attempt,
the executor returns the sentinel embedding that error immediately, with
zero sleeps and exactly one attempt; being total, it never raises. -/
theorem non_rate_limit_error_immediate_sentinel (gen : Nat → GenOutcome)
    (e : String) (h : gen 0 = .otherError e) :
    make_gemini_call_with_retry gen 7 1 = ⟨unexpectedErrorSentinel e, [], 1⟩ := by
  rw [make_gemini_call_with_retry, retryAux_other gen 7 7 0 1 [] e h (by omega)]
  rfl

/-- Witness for C4 at a concrete mock. -/
theorem non_rate_limit_error_immediate_sentinel_witness :
    make_gemini_call_with_retry (fun _ => .otherError "boom") 7 1 =
      ⟨unexpectedErrorSentinel "boom", [], 1⟩ :=
  non_rate_limit_error_immediate_sentinel _ "boom" rfl

/-- C5: tabular ingestion whose parsed header lacks a `feedback_text`
column fails with a format error, regardless of the other columns. -/
theorem csv_missing_feedback_column_fails (df : CsvFrame) (flag : Bool)
    (lem : String → String) (h : "feedback_text" ∉ df.columns) :
    ingest_and_clean_data (.csv (.ok df)) flag lem =
      .error (.formatError csvMissingColumnMsg) := by
  simp [ingest_and_clean_data, extract_feedback_texts, h]

/-- Witness for C5 at a concrete frame. -/
theorem csv_missing_feedback_column_fails_witness :
    ingest_and_clean_data (.csv (.ok ⟨["name", "rating"], [["a", "5"]]⟩)) false id =
      .error (.formatError csvMissingColumnMsg) :=
  csv_missing_feedback_column_fails ⟨["name", "rating"], [["a", "5"]]⟩ false id
    (by decide)

/-- C6: structured ingestion fails with a format error whenever the
top-level JSON value is not a list; on a list of non-object elements every
element is silently skipped, extraction yields the empty sequence, and
ingestion then fails with the empty-result error. -/
theorem json_top_level_and_scalar_behaviour (flag : Bool) (lem : String → String) :
    (∀ v : JsonVal, v.isArr = false →
      ingest_and_clean_data (.json (.ok v)) flag lem =
        .error (.formatError jsonNotListMsg)) ∧
    (∀ items : List JsonVal, (∀ it ∈ items, it.isObj = false) →
      extract_feedback_texts (.json (.ok (.arr items))) = .ok [] ∧
      ingest_and_clean_data (.json (.ok (.arr items))) flag lem =
        .error (.emptyResultError emptyResultMsg)) := by
  constructor
  · intro v hv
    cases v with
    | arr items => simp [JsonVal.isArr] at hv
    | obj fields => simp [ingest_and_clean_data, extract_feedback_texts]
    | str s => simp [ingest_and_clean_data, extract_feedback_texts]
    | scalar => simp [ingest_and_clean_data, extract_feedback_texts]
  · intro items hitems
    have hext : extract_feedback_texts (.json (.ok (.arr items))) = .ok [] := by
      simp only [extract_feedback_texts]
      congr 1
      rw [List.filterMap_eq_nil_iff]
      intro it hit
      have := hitems it hit
      cases it <;> simp_all [JsonVal.isObj]
    exact ⟨hext, by simp [ingest_and_clean_data, hext, cleanTexts]⟩

/-- Witness for C6 at a concrete object and a concrete scalar list. -/
theorem json_top_level_and_scalar_behaviour_witness :
    ingest_and_clean_data (.json (.ok (.obj []))) false id =
      .error (.formatError jsonNotListMsg) ∧
    (extract_feedback_texts (.json (.ok (.arr [.scalar, .str "hi"]))) = .ok [] ∧
      ingest_and_clean_data (.json (.ok (.arr [.scalar, .str "hi"]))) false id =
        .error (.emptyResultError emptyResultMsg)) :=
  ⟨(json_top_level_and_scalar_behaviour false id).1 (.obj []) rfl,
   (json_top_level_and_scalar_behaviour false id).2 [.scalar, .str "hi"]
     (by intro it hit; fin_cases hit <;> rfl)⟩

/-- C7: whenever ingestion returns normally, the result is a non-empty
sequence of non-empty strings, equal to the extracted raw records each
normalized with the normalized-empty ones dropped (hence in original
order); if nothing survives cleaning, ingestion fails with the
empty-result error instead. -/
theorem ingest_result_nonempty_invariant (content : FileContent) (flag : Bool)
    (lem : String → String) :
    (∀ l, ingest_and_clean_data content flag lem = .ok l →
      l ≠ [] ∧ (∀ s ∈ l, s ≠ "") ∧
      ∃ raw, extract_feedback_texts content = .ok raw ∧
        l = cleanTexts lem flag raw) ∧
    (∀ raw, extract_feedback_texts content = .ok raw →
      cleanTexts lem flag raw = [] →
      ingest_and_clean_data content flag lem =
        .error (.emptyResultError emptyResultMsg)) := by
  constructor
  · intro l hl
    rw [ingest_and_clean_data] at hl
    cases hext : extract_feedback_texts content with
    | error e => rw [hext] at hl; exact absurd hl (by simp)
    | ok raw =>
      rw [hext] at hl
      simp only at hl
      by_cases hempty : cleanTexts lem flag raw = []
      · rw [if_pos hempty] at hl; exact absurd hl (by simp)
      · rw [if_neg hempty] at hl
        have hleq : l = cleanTexts lem flag raw := by
          cases hl; rfl
        subst hleq
        refine ⟨hempty, ?_, raw, rfl, rfl⟩
        intro s hs
        have := List.of_mem_filter hs
        simpa using this
  · intro raw hext hempty
    rw [ingest_and_clean_data, hext]
    simp only [hempty, if_pos]

/-- Witness for C7 at a concrete line file. -/
theorem ingest_result_nonempty_invariant_witness :
    (["hi there"] : List String) ≠ [] ∧
      (∀ s ∈ (["hi there"] : List String), s ≠ "") ∧
      ∃ raw, extract_feedback_texts (.txt ["hi there"]) = .ok raw ∧
        ["hi there"] = cleanTexts id false raw :=
  (ingest_result_nonempty_invariant (.txt ["hi there"]) false id).1
    ["hi there"] (by rfl)

/-- C8 counterexample: `normalize` is not idempotent.  Punctuation removal
can fuse characters into a URL-shaped token: with lemmatization disabled,
`normalize "htt.pa" = "httpa"`, but a second pass deletes `httpa` as a
`http`-led token, yielding `""`. -/
theorem normalize_not_idempotent_counterexample :
    normalizeText id (normalizeText id "htt.pa" false) false ≠
      normalizeText id "htt.pa" false := by
  decide

/-- C8 amended: with lemmatization disabled, `normalize` is idempotent on
every input whose normalized form contains neither `http` nor `www` as a
substring. -/
theorem normalize_idempotent_amended (lem : String → String) (x : String)
    (h1 : occursInStr (normalizeText lem x false) "http" = false)
    (h2 : occursInStr (normalizeText lem x false) "www" = false) :
    normalizeText lem (normalizeText lem x false) false =
      normalizeText lem x false := by
  set y := normalizeText lem x false with hy
  have hydata : y.data =
      pyStripList (((stripHtmlFuel
          ((removeUrlsFuel (pyLowerList x.data).length (pyLowerList x.data)).length)
          (removeUrlsFuel (pyLowerList x.data).length (pyLowerList x.data))).filter
        (fun c => isPyWord c || isPySpace c))) := rfl
  have F1 : ∀ c ∈ y.data, (isPyWord c || isPySpace c) = true := by
    intro c hc
    rw [hydata] at hc
    have := pyStripList_subset _ c hc
    exact (List.mem_filter.mp this).2
  have F2 : ∀ c ∈ y.data, pyToLower c = c := by
    intro c hc
    rw [hydata] at hc
    have hcl := pyStripList_subset _ c hc
    have hcl2 := List.mem_of_mem_filter hcl
    have hcl3 := stripHtmlFuel_subset _ _ c hcl2
    have hcl4 := removeUrlsFuel_subset _ _ c hcl3
    rw [pyLowerList] at hcl4
    obtain ⟨c0, _, rfl⟩ := List.mem_map.mp hcl4
    exact pyToLower_idem c0
  have hh : occursIn httpPat y.data = false := h1
  have hw : occursIn wwwPat y.data = false := h2
  show pyStripStr (remove_punctuation (remove_html_tags
    (remove_urls ⟨pyLowerList y.data⟩))) = y
  have h3 : pyLowerList y.data = y.data := mapFixedId pyToLower y.data F2
  rw [show (⟨pyLowerList y.data⟩ : String) = y by rw [h3]]
  rw [show remove_urls y = y by
    rw [remove_urls, removeUrlsFuel_id y.data.length y.data hh hw]]
  rw [show remove_html_tags y = y by
    rw [remove_html_tags, stripHtmlFuel_id y.data.length y.data (by
      intro c hc hlt
      have := F1 c hc
      rw [hlt] at this
      simp [isPyWord, isPySpace, Char.isAlphanum, Char.isAlpha, Char.isDigit,
        Char.isUpper, Char.isLower] at this)]]
  rw [show remove_punctuation y = y by
    rw [remove_punctuation, List.filter_eq_self.mpr F1]]
  show (⟨pyStripList y.data⟩ : String) = y
  rw [hydata, pyStripList_idem, ← hydata]

/-- Witness for the amended C8 at a concrete input. -/
theorem normalize_idempotent_amended_witness :
    occursInStr (normalizeText id "Hello, World!" false) "http" = false ∧
    occursInStr (normalizeText id "Hello, World!" false) "www" = false ∧
    normalizeText id (normalizeText id "Hello, World!" false) false =
      normalizeText id "Hello, World!" false :=
  ⟨by decide, by decide,
    normalize_idempotent_amended id "Hello, World!" (by decide) (by decide)⟩

/-- C9: after the batch analysis completes, the sentiment and topic result
arrays both have the length of the cleaned-feedback sequence and are
aligned index-for-index with the input order (the i-th entries are the
analysis of the i-th cleaned item); before analysis runs both arrays are
empty. -/
theorem analysis_arrays_aligned (st : SessionState) (getS : String → String)
    (getT : String → List String) (summ : List String → String) :
    (run_ai_analysis st getS getT summ).sentiments.length =
      st.cleaned_feedback.length ∧
    (run_ai_analysis st getS getT summ).topics_per_feedback.length =
      st.cleaned_feedback.length ∧
    (run_ai_analysis st getS getT summ).sentiments =
      st.cleaned_feedback.map getS ∧
    (run_ai_analysis st getS getT summ).topics_per_feedback =
      st.cleaned_feedback.map (fun f => topicsJoin (getT f)) ∧
    initial_session.sentiments = [] ∧
    initial_session.topics_per_feedback = [] := by
  rw [run_ai_analysis]
  rw [analysisLoop_eq]
  simp [initial_session]

/-- C10: when the executor returns the empty-or-blocked sentinel, the
topic parser does not filter it out: `extract_topics` yields the non-empty
list of the comma-split, trimmed fragments of the sentinel text. -/
theorem blocked_sentinel_topics_not_filtered :
    (make_gemini_call_with_retry (fun _ => GenOutcome.ok "") 7 1).text =
      emptyBlockedSentinel ∧
    extract_topics_parse emptyBlockedSentinel =
      ["AI response was empty or blocked for this input",
       "possibly due to safety settings."] ∧
    extract_topics (fun _ => GenOutcome.ok "") ≠ [] := by
  refine ⟨rfl, by decide, ?_⟩
  decide
